import Mathlib

/-!
Verification of the pcdl TimeStep loading pipeline (timestep.py).

This file gives a shallow embedding, in Lean 4, of the parts of
`pcdl/timestep.py` that decode one PhysiCell time-step output bundle:
the cell label schema resolver, the agent matrix loader, the mesh
geometry builder, the voxel-index snapping, the cell-type resolver,
the adjacency graph file decoder, the accessor copy discipline, and
the dataframe column filter.  Machine floats are modelled as exact
rationals, numpy arrays as lists, Python dicts as association lists
with last-write-wins update, and fallible Python code as Except.
-/

namespace Pcdl

/-- Decidable equality of Except results, for stating concrete loader
outcomes. -/
instance {ε α : Type} [DecidableEq ε] [DecidableEq α] :
    DecidableEq (Except ε α) := fun x y =>
  match x, y with
  | .ok a, .ok b =>
    if h : a = b then .isTrue (congrArg Except.ok h)
    else .isFalse (fun hc => h (Except.ok.inj hc))
  | .error e, .error f =>
    if h : e = f then .isTrue (congrArg Except.error h)
    else .isFalse (fun hc => h (Except.error.inj hc))
  | .ok _, .error _ => .isFalse (fun hc => Except.noConfusion hc)
  | .error _, .ok _ => .isFalse (fun hc => Except.noConfusion hc)

/- ------------------------------------------------------------------
Python dict semantics: insertion ordered, update overwrites in place.
`dictUpd d k v` models `d.update({k: v})` on one key, `dictUpdate d e`
models `d.update(e)` entry by entry.
------------------------------------------------------------------- -/

def dictUpd {K V : Type} [DecidableEq K] (d : List (K × V)) (k : K) (v : V) :
    List (K × V) :=
  if d.any (fun p => p.1 = k) then
    d.map (fun p => if p.1 = k then (k, v) else p)
  else
    d ++ [(k, v)]

def dictUpdate {K V : Type} [DecidableEq K] (d e : List (K × V)) : List (K × V) :=
  e.foldl (fun acc p => dictUpd acc p.1 p.2) d

/- ------------------------------------------------------------------
Decimal rendering, Python str(n) for natural and integer numbers.
Used by the label expander (str(i), str(i).zfill(3)) and by the
round-trip statement for the graph file decoder.
------------------------------------------------------------------- -/

def digitChar (d : ℕ) : Char := Char.ofNat (48 + d)

/-- Decimal digit characters of a positive number, most significant
first; the first argument is recursion fuel, always called with fuel
at least n. -/
def natReprGo : ℕ → ℕ → List Char
  | 0, _ => []
  | fuel + 1, n =>
    if n = 0 then [] else natReprGo fuel (n / 10) ++ [digitChar (n % 10)]

def natRepr (n : ℕ) : List Char :=
  if n = 0 then [digitChar 0] else natReprGo n n

def intRepr (i : ℤ) : List Char :=
  if i < 0 then '-' :: natRepr i.natAbs else natRepr i.natAbs

/-- Python str.zfill: left pad with zero characters up to the width. -/
def zfill (w : ℕ) (l : List Char) : List Char :=
  List.replicate (w - l.length) (digitChar 0) ++ l

def natStr (n : ℕ) : String := String.mk (natRepr n)

/- ------------------------------------------------------------------
Cell label schema resolver (timestep.py lines 2726..2785).
The four convention sets are the module constants es_var_subs,
es_var_cell, es_var_death, es_var_spatial of timestep.py.
------------------------------------------------------------------- -/

def es_var_subs : List String :=
  ["chemotactic_sensitivities", "secretion_rates", "uptake_rates",
   "saturation_densities", "net_export_rates",
   "internalized_total_substrates", "fraction_released_at_death",
   "fraction_transferred_when_ingested"]

def es_var_cell : List String :=
  ["cell_adhesion_affinities", "live_phagocytosis_rates", "attack_rates",
   "immunogenicities", "fusion_rates", "transformation_rates"]

def es_var_death : List String := ["death_rates"]

def es_var_spatial : List String :=
  ["migration_bias_direction", "motility_bias_direction", "motility_vector",
   "orientation", "position", "velocity"]

/-- One label element of the XML label list: text, size attribute, units
attribute, as read in the loop over labels in TimeStep._read_xml. -/
structure CellLabel where
  name : String
  size : ℕ
  unit : String
deriving DecidableEq, Repr

/-- Expansion of one label into column names, translated from the
if/elif chain of TimeStep._read_xml.  lsSubstrate and lsCelltype are
the id sorted substrate and cell type label lists of the surrounding
code (empty when the respective mapping dict is empty). -/
def expandLabel (lsSubstrate lsCelltype : List String) (lab : CellLabel) :
    List String :=
  if lab.name ∈ es_var_subs then
    if 0 < lsSubstrate.length then
      lsSubstrate.map (fun s => s ++ "_" ++ lab.name)
    else
      (List.range lab.size).map (fun i => lab.name ++ "_" ++ natStr i)
  else if lab.name ∈ es_var_cell then
    if 0 < lsCelltype.length then
      lsCelltype.map (fun s => s ++ "_" ++ lab.name)
    else
      (List.range lab.size).map (fun i => lab.name ++ "_" ++ natStr i)
  else if lab.name ∈ es_var_death then
    (List.range lab.size).map (fun i => lab.name ++ "_" ++ natStr i)
  else if lab.name ∈ es_var_spatial then
    [lab.name ++ "_x", lab.name ++ "_y", lab.name ++ "_z"]
  else if 1 < lab.size then
    (List.range lab.size).map
      (fun i => lab.name ++ "_" ++ String.mk (zfill 3 (natRepr i)))
  else
    [lab.name]

/-- The full ordered column name list ls_variable accumulated over the
label loop of TimeStep._read_xml. -/
def expandLabels (lsSubstrate lsCelltype : List String)
    (labels : List CellLabel) : List String :=
  labels.flatMap (expandLabel lsSubstrate lsCelltype)

/- ------------------------------------------------------------------
Specification side of the schema resolver, written from the words of
the spec (a fixed five rule priority order, first matching rule wins),
as an explicit tagged classification.
------------------------------------------------------------------- -/

inductive LabelKind where
  | perSubstrate
  | perCelltype
  | perDeath
  | spatialVec
  | plain
deriving DecidableEq, Repr

/-- First matching rule of the five rule priority order. -/
def classifyLabel (name : String) : LabelKind :=
  if name ∈ es_var_subs then .perSubstrate
  else if name ∈ es_var_cell then .perCelltype
  else if name ∈ es_var_death then .perDeath
  else if name ∈ es_var_spatial then .spatialVec
  else .plain

/-- Column list demanded by the spec for one classified label:
per substrate name, one column per resolved substrate label, or one
per positional index when no substrate table exists; same per agent
type; per death model name, one column per index below the declared
width; spatial vector name, exactly the three axis suffixed columns;
otherwise width one keeps the name, larger width appends a zero padded
index. -/
def expandLabelSpec (lsSubstrate lsCelltype : List String) (lab : CellLabel) :
    List String :=
  match classifyLabel lab.name with
  | .perSubstrate =>
    match lsSubstrate with
    | [] => (List.range lab.size).map (fun i => lab.name ++ "_" ++ natStr i)
    | _ :: _ => lsSubstrate.map (fun s => s ++ "_" ++ lab.name)
  | .perCelltype =>
    match lsCelltype with
    | [] => (List.range lab.size).map (fun i => lab.name ++ "_" ++ natStr i)
    | _ :: _ => lsCelltype.map (fun s => s ++ "_" ++ lab.name)
  | .perDeath =>
    (List.range lab.size).map (fun i => lab.name ++ "_" ++ natStr i)
  | .spatialVec =>
    [lab.name ++ "_x", lab.name ++ "_y", lab.name ++ "_z"]
  | .plain =>
    if lab.size = 1 then [lab.name]
    else (List.range lab.size).map
      (fun i => lab.name ++ "_" ++ String.mk (zfill 3 (natRepr i)))

def expandLabelsSpec (lsSubstrate lsCelltype : List String)
    (labels : List CellLabel) : List String :=
  labels.flatMap (expandLabelSpec lsSubstrate lsCelltype)

/- ------------------------------------------------------------------
Agent matrix loader (timestep.py lines 2787..2800).
The cells.mat content is a matrix whose rows are tracked variables and
whose columns are agents.  `none` stands for the known corrupt
zero agent file which makes scipy io.loadmat raise ValueError; the
except branch substitutes np.empty([len(ls_variable), 0]).  The shape
check then aborts on any row count mismatch with the expanded schema.
------------------------------------------------------------------- -/

def loadCellMatrix (lsVariable : List String)
    (cellsFile : Option (List (List ℚ))) :
    Except String (List (String × List ℚ)) :=
  let arCell : List (List ℚ) :=
    match cellsFile with
    | some m => m
    | none => lsVariable.map (fun _ => [])
  if arCell.length = lsVariable.length then
    Except.ok (lsVariable.zip arCell)
  else
    Except.error "extracted column label list and data array shape are incompatible"

/- ------------------------------------------------------------------
Mesh geometry builder (timestep.py lines 2486..2561).
Coordinate arrays come from the XML x_coordinates, y_coordinates,
z_coordinates text fields; the fourth row of the mesh mat file is the
per voxel volume row.  np.unique sorts and removes duplicates; .min()
and .max() of a nonempty array are its least and greatest element.
------------------------------------------------------------------- -/

def npUnique (l : List ℚ) : List ℚ := List.insertionSort (· ≤ ·) l.dedup

def listMin (l : List ℚ) : ℚ :=
  match l with
  | [] => 0
  | x :: xs => xs.foldl min x

def listMax (l : List ℚ) : ℚ :=
  match l with
  | [] => 0
  | x :: xs => xs.foldl max x

structure RawMesh where
  xCoor : List ℚ
  yCoor : List ℚ
  zCoor : List ℚ
  volumeRow : List ℚ
deriving DecidableEq, Repr

structure MeshData where
  mnpAxis : List ℚ × List ℚ × List ℚ
  mnpRange : (ℚ × ℚ) × (ℚ × ℚ) × (ℚ × ℚ)
  ijkRange : (ℤ × ℤ) × (ℤ × ℤ) × (ℤ × ℤ)
  volume : ℚ
  mnpSpacing : ℚ × ℚ × ℚ
deriving DecidableEq, Repr

/-- Mesh assembly from the coordinate arrays and the volume row of the
mesh mat file.  The volume consistency check len(set(ar_volume)) != 1
aborts the load with sys.exit; afterwards dm and dn fall back to 1.0
exactly when the axis range collapses (len(set(tr_range)) == 1, that
is min = max), and dp is always volume / (dm * dn). -/
def buildMesh (rm : RawMesh) : Except String MeshData :=
  let mAxis := npUnique rm.xCoor
  let nAxis := npUnique rm.yCoor
  let pAxis := npUnique rm.zCoor
  let mRange := (listMin mAxis, listMax mAxis)
  let nRange := (listMin nAxis, listMax nAxis)
  let pRange := (listMin pAxis, listMax pAxis)
  let iRange : ℤ × ℤ := (0, (mAxis.length : ℤ) - 1)
  let jRange : ℤ × ℤ := (0, (nAxis.length : ℤ) - 1)
  let kRange : ℤ × ℤ := (0, (pAxis.length : ℤ) - 1)
  if rm.volumeRow.dedup.length = 1 then
    let volume := rm.volumeRow.headD 0
    let dm : ℚ := if mRange.1 = mRange.2 then 1
      else (mRange.2 - mRange.1) / ((mAxis.length : ℚ) - 1)
    let dn : ℚ := if nRange.1 = nRange.2 then 1
      else (nRange.2 - nRange.1) / ((nAxis.length : ℚ) - 1)
    let dp : ℚ := volume / (dm * dn)
    Except.ok
      { mnpAxis := (mAxis, nAxis, pAxis)
        mnpRange := (mRange, nRange, pRange)
        ijkRange := (iRange, jRange, kRange)
        volume := volume
        mnpSpacing := (dm, dn, dp) }
  else
    Except.error "mesh is not built out of a unique voxel volume"

/- ------------------------------------------------------------------
Voxel membership of an agent (timestep.py lines 2836..2846).
np.round rounds half to even; the rounded index is clamped first at
the upper bound and then at the lower bound of the voxel index range.
------------------------------------------------------------------- -/

/-- np.round of a rational to an integer, ties to even. -/
def npRound (q : ℚ) : ℤ :=
  let f := ⌊q⌋
  let frac := q - (f : ℚ)
  if frac < 1/2 then f
  else if (1:ℚ)/2 < frac then f + 1
  else if f % 2 = 0 then f else f + 1

/-- Voxel index of one axis: snap to nearest index with np.round and
clamp into the index range lo..hi (first at hi, then at lo), exactly
as done on df_voxel in TimeStep._read_xml. -/
def voxelIndexAxis (pos lo spacing : ℚ) (iLo iHi : ℤ) : ℤ :=
  let i := npRound ((pos - lo) / spacing)
  let iClampHigh := if iHi < i then iHi else i
  if iClampHigh < iLo then iLo else iClampHigh

/-- Voxel indices of one agent position against a loaded mesh. -/
def cellVoxel (md : MeshData) (pos : ℚ × ℚ × ℚ) : ℤ × ℤ × ℤ :=
  (voxelIndexAxis pos.1 md.mnpRange.1.1 md.mnpSpacing.1
      md.ijkRange.1.1 md.ijkRange.1.2,
   voxelIndexAxis pos.2.1 md.mnpRange.2.1.1 md.mnpSpacing.2.1
      md.ijkRange.2.1.1 md.ijkRange.2.1.2,
   voxelIndexAxis pos.2.2 md.mnpRange.2.2.1 md.mnpSpacing.2.2
      md.ijkRange.2.2.1 md.ijkRange.2.2.2)

/- ------------------------------------------------------------------
Agent type resolver (timestep.py lines 2374, 2399..2414, 2702..2722,
2802..2807).  The mutable state is the pair (ds_celltype, b_celltype).
Codes are modelled as integers (every key written is str of an int).
------------------------------------------------------------------- -/

structure CelltypeAcc where
  ds : List (ℤ × String)
  b : Bool
deriving DecidableEq, Repr

/-- Settings file step (silver quality): when a PhysiCell_settings.xml
is supplied, its cell_definition ID name pairs are written into
ds_celltype and b_celltype is set. -/
def settingsStep (settings : Option (List (ℤ × String))) (acc : CelltypeAcc) :
    CelltypeAcc :=
  match settings with
  | some t => { ds := dictUpdate acc.ds t, b := true }
  | none => acc

/-- Output xml cell_types step (gold quality): the try block walks the
cell_types node when present, updating ds_celltype over whatever the
settings step wrote; a missing node raises AttributeError which the
except branch swallows. -/
def goldStep (gold : Option (List (ℤ × String))) (acc : CelltypeAcc) :
    CelltypeAcc :=
  match gold with
  | some t => { ds := dictUpdate acc.ds t, b := true }
  | none => acc

/-- Label scan step (the second silver quality block): it only runs
when b_celltype is still unset, and its first loop iteration reads
x_label.tex, an attribute that does not exist on Element values, so
with at least one label it raises an uncaught AttributeError. -/
def labelScanStep (labels : List CellLabel) (acc : CelltypeAcc) :
    Except String CelltypeAcc :=
  if acc.b then Except.ok acc
  else
    match labels with
    | [] => Except.ok acc
    | _ :: _ => Except.error "AttributeError: Element object has no attribute tex"

/-- Truncation of a rational toward zero, Python int(float). -/
def pyTrunc (q : ℚ) : ℤ := q.num.tdiv q.den

/-- Bronze quality step, after the cell matrix is loaded: when
b_celltype is still unset, every distinct value of the cell_type data
row becomes its own label.  ls_variable.index raises ValueError when
cell_type is not a resolved column. -/
def bronzeStep (table : List (String × List ℚ)) (acc : CelltypeAcc) :
    Except String CelltypeAcc :=
  if acc.b then Except.ok acc
  else
    match table.find? (fun p => p.1 = "cell_type") with
    | none => Except.error "ValueError: cell_type is not in list"
    | some p =>
      let codes := (p.2.map pyTrunc).dedup
      Except.ok
        { ds := codes.foldl (fun d c => dictUpd d c (String.mk (intRepr c))) acc.ds
          b := true }

/-- Sorted label list of an id to label dict, as in
[ds[key] for key in sorted(ds, key=int)]. -/
def sortedLabels (ds : List (ℤ × String)) : List String :=
  (List.insertionSort (fun a b : ℤ × String => a.1 ≤ b.1) ds).map Prod.snd

/-- The cell data part of TimeStep._read_xml: cell type detection from
the settings file and the output xml, the label scan fallback, schema
expansion, matrix load, and the bronze fallback, in source order.
Returns the final ds_celltype together with the loaded cell table. -/
def readCellData (settings gold : Option (List (ℤ × String)))
    (labels : List CellLabel) (lsSubstrate : List String)
    (cellsFile : Option (List (List ℚ))) :
    Except String (List (ℤ × String) × List (String × List ℚ)) :=
  let acc := goldStep gold (settingsStep settings { ds := [], b := false })
  match labelScanStep labels acc with
  | .error e => .error e
  | .ok acc1 =>
    let lsVariable := expandLabels lsSubstrate (sortedLabels acc1.ds) labels
    match loadCellMatrix lsVariable cellsFile with
    | .error e => .error e
    | .ok table =>
      match bronzeStep table acc1 with
      | .error e => .error e
      | .ok acc2 => .ok (acc2.ds, table)

/-- The three tier fallback exactly as the claim words it: the output
xml table when present, else the settings table, else one decimal
label per distinct observed agent type code. -/
def claimResolve (gold settings : Option (List (ℤ × String)))
    (observed : List ℤ) : List (ℤ × String) :=
  match gold with
  | some t => t
  | none =>
    match settings with
    | some t => t
    | none => observed.dedup.map (fun c => (c, String.mk (intRepr c)))

/- ------------------------------------------------------------------
Graph decoder, function graphfile_parser of timestep.py (lines
217..244; the Lean name drops the underscore spelling).  Lines are
modelled as character lists.  str.strip removes whitespace at both
ends, str.split(sep) cuts at every separator occurrence, int() strips
whitespace, takes an optional sign and requires at least one decimal
digit (the underscore digit grouping of Python literals is not used by
these files and is not modelled).
------------------------------------------------------------------- -/

def pyIsSpace (c : Char) : Bool :=
  c.toNat = 32 ∨ c.toNat = 9 ∨ c.toNat = 10 ∨ c.toNat = 13 ∨
  c.toNat = 11 ∨ c.toNat = 12

def pyStrip (l : List Char) : List Char :=
  ((l.dropWhile pyIsSpace).reverse.dropWhile pyIsSpace).reverse

def pySplit (sep : Char) : List Char → List (List Char)
  | [] => [[]]
  | c :: cs =>
    match pySplit sep cs with
    | [] => [[]]
    | h :: t => if c = sep then [] :: h :: t else (c :: h) :: t

def charDigit (c : Char) : Option ℕ :=
  if 48 ≤ c.toNat ∧ c.toNat ≤ 57 then some (c.toNat - 48) else none

def parseDigitsAux (acc : ℕ) : List Char → Option ℕ
  | [] => some acc
  | c :: cs =>
    match charDigit c with
    | some d => parseDigitsAux (acc * 10 + d) cs
    | none => none

def parseDigits (l : List Char) : Option ℕ :=
  match l with
  | [] => none
  | _ :: _ => parseDigitsAux 0 l

/-- Python int(str) on a character list. -/
def pyInt (l : List Char) : Option ℤ :=
  match pyStrip l with
  | '-' :: rest => (parseDigits rest).map (fun n => -(n : ℤ))
  | '+' :: rest => (parseDigits rest).map (fun n => (n : ℤ))
  | t => (parseDigits t).map (fun n => (n : ℤ))

def pyIntList : List (List Char) → Option (List ℤ)
  | [] => some []
  | p :: ps =>
    match pyInt p, pyIntList ps with
    | some i, some is => some (i :: is)
    | _, _ => none

/-- One line of a graph file: strip, split at the colon into exactly
key and value, parse the key, and parse the comma separated value ids
unless the value is empty after stripping. -/
def parseGraphLine (line : List Char) : Option (ℤ × Finset ℤ) :=
  match pySplit ':' (pyStrip line) with
  | [sKey, sValue] =>
    match pyInt sKey with
    | none => none
    | some k =>
      if (pyStrip sValue).length ≠ 0 then
        match pyIntList (pySplit ',' sValue) with
        | some ids => some (k, ids.toFinset)
        | none => none
      else
        some (k, (∅ : Finset ℤ))
  | _ => none

def graphfileParseAux (d : List (ℤ × Finset ℤ)) :
    List (List Char) → Except String (List (ℤ × Finset ℤ))
  | [] => Except.ok d
  | l :: ls =>
    match parseGraphLine l with
    | some (k, s) => graphfileParseAux (dictUpd d k s) ls
    | none => Except.error "ValueError"

/-- graphfile_parser of timestep.py: fold the parsed lines into the
dictionary dei_graph, in file order. -/
def graphfileParse (lines : List (List Char)) :
    Except String (List (ℤ × Finset ℤ)) :=
  graphfileParseAux [] lines

def graphfileParseStr (lines : List String) :
    Except String (List (ℤ × Finset ℤ)) :=
  graphfileParse (lines.map String.data)

/-- Rendering of one well formed adjacency line id colon ids. -/
def joinComma : List (List Char) → List Char
  | [] => []
  | [x] => x
  | x :: xs => x ++ ',' :: joinComma xs

def renderAdjLine (k : ℤ) (vs : List ℤ) : List Char :=
  intRepr k ++ ':' :: joinComma (vs.map intRepr)

/- ------------------------------------------------------------------
Accessor copy discipline (timestep.py get_mesh_mnp_axis, line 742).
self.data['mesh']['mnp_axis'] is a Python list holding three numpy
arrays; the accessor returns its .copy(), a shallow list copy: a new
outer list whose elements are the very same array objects.  The heap
of array objects is modelled explicitly as a store from addresses to
value lists, so that aliasing is observable.
------------------------------------------------------------------- -/

def Store : Type := ℕ → List ℚ

/-- The part of a TimeStep snapshot the axis accessor touches: the
internal list of references to the three mesh center arrays. -/
structure SnapshotMesh where
  mnpAxisRefs : List ℕ
deriving DecidableEq, Repr

/-- Python list.copy: a fresh outer list carrying the same element
references. -/
def listShallowCopy (l : List ℕ) : List ℕ := l

/-- get_mesh_mnp_axis: return self.data['mesh']['mnp_axis'].copy(). -/
def get_mesh_mnp_axis (snap : SnapshotMesh) : List ℕ :=
  listShallowCopy snap.mnpAxisRefs

/-- Dereference a list of array references against the store: the
numeric content an observer of the returned list sees. -/
def readAxes (store : Store) (refs : List ℕ) : List (List ℚ) :=
  refs.map store

/-- An in place element assignment through an array reference, the
caller side mutation ar[idx] = v on a returned numpy array. -/
def storeWrite (store : Store) (addr : ℕ) (idx : ℕ) (v : ℚ) : Store :=
  fun a => if a = addr then (store addr).set idx v else store a

/- ------------------------------------------------------------------
Column filter of get_conc_df and get_cell_df (timestep.py lines
1076..1118 and 1478..1503).  es_coor_conc and es_coor_cell are the
fixed coordinate column sets of timestep.py lines 160..174.  The
filter argument distinctCount models len(set(df.loc[:, column])).
------------------------------------------------------------------- -/

def es_coor_conc : List String :=
  ["ID", "voxel_i", "voxel_j", "voxel_k",
   "mesh_center_m", "mesh_center_n", "mesh_center_p",
   "time", "runtime", "xmlfile"]

def es_coor_cell : List String :=
  ["ID", "voxel_i", "voxel_j", "voxel_k",
   "mesh_center_m", "mesh_center_n", "mesh_center_p",
   "position_x", "position_y", "position_z",
   "time", "runtime", "xmlfile"]

/-- The keep, drop and minimal distinct value filtering shared by
get_conc_df and get_cell_df: conflicting keep and drop arguments
abort; the attribute set is the column set minus the coordinate set;
the deletion set comes from keep or drop restricted to attributes,
extended by the low distinct count columns outside the coordinate set;
the returned frame drops exactly the deletion set. -/
def filterColumns (esCoor columns : List String)
    (distinctCount : String → ℕ) (values : ℕ) (drop keep : List String) :
    Except String (List String) :=
  if 0 < keep.length ∧ 0 < drop.length then
    Except.error "when keep is given, then drop has to be an empty set"
  else
    let esAttribute := columns.filter (fun c => c ∉ esCoor)
    let esDelete :=
      if 0 < keep.length then esAttribute.filter (fun c => c ∉ keep)
      else esAttribute.filter (fun c => c ∈ drop)
    let esDelete :=
      if 1 < values then
        esDelete ++ (columns.filter
          (fun c => c ∉ esCoor ∧ distinctCount c < values))
      else esDelete
    Except.ok (columns.filter (fun c => c ∉ esDelete))

/-- Column outcome of get_conc_df. -/
def get_conc_df_cols (columns : List String) (distinctCount : String → ℕ)
    (values : ℕ) (drop keep : List String) : Except String (List String) :=
  filterColumns es_coor_conc columns distinctCount values drop keep

/-- Column outcome of get_cell_df. -/
def get_cell_df_cols (columns : List String) (distinctCount : String → ℕ)
    (values : ℕ) (drop keep : List String) : Except String (List String) :=
  filterColumns es_coor_cell columns distinctCount values drop keep

/- ------------------------------------------------------------------
Specification side formulas and concrete scenario inputs.
------------------------------------------------------------------- -/

/-- Spacing formula in the words of the spec: an axis whose coordinate
range collapses to a single value gets spacing one; otherwise the
first two axes get range over count minus one; the third spacing is
derived as volume over the product of the first two spacings. -/
def mnpSpacingSpec (md : MeshData) : ℚ × ℚ × ℚ :=
  let dm : ℚ :=
    if md.mnpRange.1.1 = md.mnpRange.1.2 then 1
    else (md.mnpRange.1.2 - md.mnpRange.1.1) / ((md.mnpAxis.1.length : ℚ) - 1)
  let dn : ℚ :=
    if md.mnpRange.2.1.1 = md.mnpRange.2.1.2 then 1
    else (md.mnpRange.2.1.2 - md.mnpRange.2.1.1) /
      ((md.mnpAxis.2.1.length : ℚ) - 1)
  (dm, dn, md.volume / (dm * dn))

/-- Scenario A mesh: x centers 0 10 20, y centers 0 10, z centers 0,
with a free uniform voxel volume. -/
def scenarioMeshA (vol : ℚ) : RawMesh :=
  { xCoor := [0, 10, 20], yCoor := [0, 10], zCoor := [0],
    volumeRow := [vol] }

/-- A mesh mat file whose volume row is empty: zero distinct values. -/
def emptyVolumeMesh : RawMesh :=
  { xCoor := [0], yCoor := [0], zCoor := [0], volumeRow := [] }

/-- Concrete three array snapshot for the accessor aliasing argument. -/
def snapC : SnapshotMesh := { mnpAxisRefs := [0, 1, 2] }

/-- Concrete store backing snapC: arrays 0 1 2 hold the scenario A
axis data. -/
def storeC : Store := fun a =>
  if a = 0 then [0, 10, 20] else if a = 1 then [0, 10]
  else if a = 2 then [0] else []

/- ==================================================================
Theorems.
================================================================== -/

/-- The zipped table of a constant map. -/
theorem zip_map_nil (ls : List String) :
    ls.zip (List.replicate ls.length ([] : List ℚ)) =
      ls.map (fun s => (s, ([] : List ℚ))) := by
  induction ls with
  | nil => rfl
  | cons s t ih => simp [List.replicate_succ, ih]

/-- C2: for every bundle whose agent matrix file is readable, the load
succeeds exactly when the expanded schema column name list has the
same length as the matrix row count; any mismatch aborts the load. -/
theorem C2_schema_length_matches_rows (ls : List String)
    (m : List (List ℚ)) :
    (loadCellMatrix ls (some m)).isOk = true ↔ m.length = ls.length := by
  unfold loadCellMatrix
  by_cases h : m.length = ls.length <;>
    simp [h, Except.isOk, Except.toBool]

/-- C3: loading the known corrupted zero agent matrix variant does not
fail: the substituted table has exactly the expanded schema columns in
order, each with an empty, zero row data array. -/
theorem C3_corrupt_zero_agent_table (ls : List String) :
    loadCellMatrix ls none =
      Except.ok (ls.map (fun s => (s, ([] : List ℚ)))) := by
  unfold loadCellMatrix
  simp [zip_map_nil]

/-- Coordinate preservation of the shared column filter: a column of
the incoming frame that belongs to the coordinate set survives every
keep, drop and minimal distinct value combination. -/
theorem filterColumns_keeps_coor {esCoor columns : List String}
    {dc : String → ℕ} {values : ℕ} {drop keep result : List String}
    {c : String}
    (hres : filterColumns esCoor columns dc values drop keep =
      Except.ok result)
    (hcol : c ∈ columns) (hcoor : c ∈ esCoor) : c ∈ result := by
  unfold filterColumns at hres
  by_cases hconf : 0 < keep.length ∧ 0 < drop.length
  · simp [hconf] at hres
  · rw [if_neg hconf] at hres
    have hr := Except.ok.inj hres
    subst hr
    refine List.mem_filter.mpr ⟨hcol, ?_⟩
    simp only [decide_eq_true_eq]
    intro hdel
    by_cases hv : 1 < values
    · rw [if_pos hv] at hdel
      rcases List.mem_append.mp hdel with hd | hd
      · by_cases hk : 0 < keep.length
        · rw [if_pos hk] at hd
          exact absurd hcoor
            (by simpa using (List.mem_filter.mp (List.mem_filter.mp hd).1).2)
        · rw [if_neg hk] at hd
          exact absurd hcoor
            (by simpa using (List.mem_filter.mp (List.mem_filter.mp hd).1).2)
      · exact absurd hcoor
          ((by simpa using (List.mem_filter.mp hd).2 :
            c ∉ esCoor ∧ dc c < values)).1
    · rw [if_neg hv] at hdel
      by_cases hk : 0 < keep.length
      · rw [if_pos hk] at hdel
        exact absurd hcoor
          (by simpa using (List.mem_filter.mp (List.mem_filter.mp hdel).1).2)
      · rw [if_neg hk] at hdel
        exact absurd hcoor
          (by simpa using (List.mem_filter.mp (List.mem_filter.mp hdel).1).2)

/-- C10: whatever the values, drop and keep arguments, the coordinate
columns present in the frame survive both get_conc_df and get_cell_df
filtering: the deletion sets are computed only over columns outside
es_coor_conc and es_coor_cell. -/
theorem C10_coordinate_columns_survive :
    (∀ (columns : List String) (dc : String → ℕ) (values : ℕ)
      (drop keep result : List String) (c : String),
      get_conc_df_cols columns dc values drop keep = Except.ok result →
      c ∈ columns → c ∈ es_coor_conc → c ∈ result) ∧
    (∀ (columns : List String) (dc : String → ℕ) (values : ℕ)
      (drop keep result : List String) (c : String),
      get_cell_df_cols columns dc values drop keep = Except.ok result →
      c ∈ columns → c ∈ es_coor_cell → c ∈ result) := by
  constructor
  · intro columns dc values drop keep result c hres hcol hcoor
    exact filterColumns_keeps_coor hres hcol hcoor
  · intro columns dc values drop keep result c hres hcol hcoor
    exact filterColumns_keeps_coor hres hcol hcoor

/-- Witness for C10 at a concrete frame: with a two distinct value
threshold and a drop set naming a coordinate column, voxel_i stays. -/
theorem C10_witness :
    "voxel_i" ∈ ["voxel_i", "voxel_j", "voxel_k", "mesh_center_m",
      "mesh_center_n", "mesh_center_p", "time", "runtime", "xmlfile"] :=
  C10_coordinate_columns_survive.1
    ["voxel_i", "voxel_j", "voxel_k", "mesh_center_m", "mesh_center_n",
     "mesh_center_p", "oxygen", "time", "runtime", "xmlfile"]
    (fun _ => 1) 2 ["voxel_i", "oxygen"] []
    ["voxel_i", "voxel_j", "voxel_k", "mesh_center_m", "mesh_center_n",
     "mesh_center_p", "time", "runtime", "xmlfile"]
    "voxel_i" (by decide) (by decide) (by decide)

/-- One label expands identically under the source chain and the spec
side five rule classification, for the declared widths that occur
(at least one). -/
theorem expandLabel_eq_spec (subs cells : List String) (lab : CellLabel)
    (h : 1 ≤ lab.size) :
    expandLabel subs cells lab = expandLabelSpec subs cells lab := by
  unfold expandLabel expandLabelSpec classifyLabel
  by_cases h1 : lab.name ∈ es_var_subs
  · cases subs <;> simp [h1]
  · by_cases h2 : lab.name ∈ es_var_cell
    · cases cells <;> simp [h1, h2]
    · by_cases h3 : lab.name ∈ es_var_death
      · simp [h1, h2, h3]
      · by_cases h4 : lab.name ∈ es_var_spatial
        · simp [h1, h2, h3, h4]
        · by_cases h5 : lab.size = 1
          · simp [h1, h2, h3, h4, h5]
          · have h6 : 1 < lab.size := by omega
            simp [h1, h2, h3, h4, h5, h6]

/-- C1: the source label loop realizes the five rule priority order of
the spec on every label list whose declared widths are at least one,
and the concrete death model scenario with width two expands to the
two indexed columns. -/
theorem C1_label_schema_expansion :
    (∀ (subs cells : List String) (labels : List CellLabel),
      (∀ l ∈ labels, 1 ≤ l.size) →
      expandLabels subs cells labels = expandLabelsSpec subs cells labels) ∧
    (∀ u : String,
      expandLabels [] [] [{ name := "death_rates", size := 2, unit := u }] =
        ["death_rates_0", "death_rates_1"]) := by
  constructor
  · intro subs cells labels hall
    unfold expandLabels expandLabelsSpec
    induction labels with
    | nil => rfl
    | cons lab t ih =>
      simp only [List.flatMap_cons]
      rw [expandLabel_eq_spec subs cells lab (hall lab (by simp)),
        ih (fun l hl => hall l (by simp [hl]))]
  · intro u
    rfl

/-- Witness for C1: a substrate convention label against one resolved
substrate expands to the single substrate prefixed column on both
sides. -/
theorem C1_witness :
    expandLabels ["oxygen"] []
      [{ name := "secretion_rates", size := 1, unit := "1/min" }] =
    expandLabelsSpec ["oxygen"] []
      [{ name := "secretion_rates", size := 1, unit := "1/min" }] :=
  C1_label_schema_expansion.1 ["oxygen"] []
    [{ name := "secretion_rates", size := 1, unit := "1/min" }] (by decide)

/-- C6: on every successfully loaded mesh the stored spacing triple is
the spec formula: one for a collapsed range on the first two axes,
else range over count minus one, and the third spacing always derived
as volume over the product of the first two. -/
theorem C6_mesh_spacing (rm : RawMesh) :
    (buildMesh rm).toOption.map MeshData.mnpSpacing =
      (buildMesh rm).toOption.map mnpSpacingSpec := by
  unfold buildMesh
  by_cases h : rm.volumeRow.dedup.length = 1
  · rw [if_pos h]
    rfl
  · rw [if_neg h]
    rfl

/-- A one element distinct value list is the singleton of the head. -/
theorem dedup_length_one (l : List ℚ) (h : l.dedup.length = 1) :
    l.dedup = [l.headD 0] := by
  obtain ⟨a, ha⟩ := List.length_eq_one.mp h
  cases l with
  | nil => simp at ha
  | cons x t =>
    have hx : x ∈ (x :: t).dedup := List.mem_dedup.mpr (by simp)
    rw [ha] at hx
    simp only [List.mem_singleton] at hx
    rw [ha, List.headD_cons, hx]

/-- C7 amended: the mesh load aborts exactly when the number of
distinct values in the volume row is not one (more than one distinct
value, or an empty volume row); on success the stored volume is the
first entry of the row and is the single distinct value of the row. -/
theorem C7_volume_check (rm : RawMesh) :
    ((buildMesh rm).isOk = true ↔ rm.volumeRow.dedup.length = 1) ∧
    (∀ md : MeshData, buildMesh rm = Except.ok md →
      md.volume = rm.volumeRow.headD 0 ∧
      rm.volumeRow.dedup = [md.volume]) := by
  unfold buildMesh
  by_cases h : rm.volumeRow.dedup.length = 1
  · rw [if_pos h]
    refine ⟨by simp [h, Except.isOk, Except.toBool], ?_⟩
    intro md hmd
    have hv := congrArg MeshData.volume (Except.ok.inj hmd)
    refine ⟨hv.symm, ?_⟩
    rw [hv.symm]
    exact dedup_length_one rm.volumeRow h
  · rw [if_neg h]
    refine ⟨by simp [h, Except.isOk, Except.toBool], ?_⟩
    intro md hmd
    exact absurd hmd (by simp)

/-- C7 counterexample: on a mesh matrix file with an empty volume row
the load aborts although the row does not contain more than one
distinct value, refuting the stated if and only if. -/
theorem C7_counterexample :
    (buildMesh emptyVolumeMesh).isOk = false ∧
    ¬ 1 < emptyVolumeMesh.volumeRow.dedup.length := by
  constructor
  · rfl
  · decide

/-- Witness for C7 at a mesh whose volume row is the single value
five: the load succeeds. -/
theorem C7_witness :
    (buildMesh (RawMesh.mk [0] [0] [0] [5])).isOk = true :=
  (C7_volume_check (RawMesh.mk [0] [0] [0] [5])).1.mpr (by decide)

/-- The rounded value is the floor when the fractional part is below
one half. -/
theorem npRound_lt_half (q : ℚ) (f : ℤ) (h1 : (f : ℚ) ≤ q)
    (h2 : q < (f : ℚ) + 1) (h3 : q - (f : ℚ) < 1/2) : npRound q = f := by
  have hf : ⌊q⌋ = f := by
    rw [Int.floor_eq_iff]
    exact ⟨h1, by exact_mod_cast h2⟩
  unfold npRound
  simp only [hf]
  rw [if_pos h3]

/-- The rounded value is the floor plus one when the fractional part
is above one half. -/
theorem npRound_half_lt (q : ℚ) (f : ℤ) (h1 : (f : ℚ) ≤ q)
    (h2 : q < (f : ℚ) + 1) (h3 : 1/2 < q - (f : ℚ)) : npRound q = f + 1 := by
  have hf : ⌊q⌋ = f := by
    rw [Int.floor_eq_iff]
    exact ⟨h1, by exact_mod_cast h2⟩
  unfold npRound
  simp only [hf]
  rw [if_neg (by linarith), if_pos h3]

/-- The scenario A mesh loads to the explicit mesh record with spacing
ten, ten and volume over one hundred. -/
theorem buildMesh_scenarioA (vol : ℚ) : buildMesh (scenarioMeshA vol) =
    Except.ok (MeshData.mk ([0,10,20], [0,10], [0])
      ((0,20), (0,10), (0,0)) ((0,2), (0,1), (0,0)) vol (10, 10, vol/100)) := by
  unfold buildMesh scenarioMeshA
  rw [if_pos (by simp : ([vol] : List ℚ).dedup.length = 1)]
  have e1 : npUnique [(0:ℚ), 10, 20] = [0, 10, 20] := by decide
  have e2 : npUnique [(0:ℚ), 10] = [0, 10] := by decide
  have e3 : npUnique [(0:ℚ)] = [0] := by decide
  have m1 : listMin [(0:ℚ), 10, 20] = 0 := by decide
  have m2 : listMax [(0:ℚ), 10, 20] = 20 := by decide
  have m3 : listMin [(0:ℚ), 10] = 0 := by decide
  have m4 : listMax [(0:ℚ), 10] = 10 := by decide
  have m5 : listMin [(0:ℚ)] = 0 := by decide
  have m6 : listMax [(0:ℚ)] = 0 := by decide
  simp only [e1, e2, e3, m1, m2, m3, m4, m5, m6, List.length_cons,
    List.length_nil, List.headD_cons]
  rw [if_neg (by norm_num : ¬ ((0:ℚ) = 20)),
    if_neg (by norm_num : ¬ ((0:ℚ) = 10))]
  simp only [MeshData.mk.injEq, Except.ok.injEq]
  norm_num

/-- First scenario B axis: continuous coordinate nine against spacing
ten snaps to voxel index one. -/
theorem scenarioB_axis_m : voxelIndexAxis 9 0 10 0 2 = 1 := by
  have hr : npRound (((9:ℚ) - 0) / 10) = 1 := by
    have := npRound_half_lt (((9:ℚ) - 0) / 10) 0 (by norm_num) (by norm_num)
      (by norm_num)
    simpa using this
  unfold voxelIndexAxis
  rw [hr]
  decide

/-- Second scenario B axis: continuous coordinate four against spacing
ten snaps to voxel index zero. -/
theorem scenarioB_axis_n : voxelIndexAxis 4 0 10 0 1 = 0 := by
  have hr : npRound (((4:ℚ) - 0) / 10) = 0 := by
    exact npRound_lt_half (((4:ℚ) - 0) / 10) 0 (by norm_num) (by norm_num)
      (by norm_num)
  unfold voxelIndexAxis
  rw [hr]
  decide

/-- Degenerate axis: coordinate zero at minimum zero snaps to index
zero whatever the spacing value. -/
theorem scenarioB_axis_p (sp : ℚ) : voxelIndexAxis 0 0 sp 0 0 = 0 := by
  have hq : ((0:ℚ) - 0) / sp = 0 := by
    rw [sub_self, zero_div]
  have hr : npRound (((0:ℚ) - 0) / sp) = 0 := by
    rw [hq]
    exact npRound_lt_half 0 0 (by norm_num) (by norm_num) (by norm_num)
  unfold voxelIndexAxis
  rw [hr]
  decide

/-- C4: the voxel index stored for an agent is the rounded scaled
offset clamped into the index range, hence bounded by zero and the
axis maximum for every agent position, and the scenario B agent at
position nine four zero on the scenario A mesh receives voxel indices
one zero zero. -/
theorem C4_voxel_index_clamped (pos lo sp : ℚ) (iHi : ℤ) (h : 0 ≤ iHi) :
    (0 ≤ voxelIndexAxis pos lo sp 0 iHi ∧
      voxelIndexAxis pos lo sp 0 iHi ≤ iHi) ∧
    (∀ vol : ℚ, (buildMesh (scenarioMeshA vol)).toOption.map
      (fun md => cellVoxel md (9, 4, 0)) = some (1, 0, 0)) := by
  constructor
  · simp only [voxelIndexAxis]
    constructor <;> split_ifs <;> omega
  · intro vol
    rw [buildMesh_scenarioA vol]
    show some (cellVoxel _ (9, 4, 0)) = some (1, 0, 0)
    unfold cellVoxel
    simp only [scenarioB_axis_m, scenarioB_axis_n, scenarioB_axis_p]

/-- Witness for C4: on an axis with three voxels, every clamped index
of the concrete position seven lies between zero and two. -/
theorem C4_witness :
    0 ≤ voxelIndexAxis 7 0 10 0 2 ∧ voxelIndexAxis 7 0 10 0 2 ≤ 2 :=
  (C4_voxel_index_clamped 7 0 10 2 (by decide)).1

/-- The label scan step passes through untouched when a mapping was
already resolved. -/
theorem labelScanStep_true (labels : List CellLabel)
    (d : List (ℤ × String)) :
    labelScanStep labels (CelltypeAcc.mk d true) =
      Except.ok (CelltypeAcc.mk d true) := rfl

/-- The bronze step passes through untouched when a mapping was
already resolved. -/
theorem bronzeStep_true (table : List (String × List ℚ))
    (d : List (ℤ × String)) :
    bronzeStep table (CelltypeAcc.mk d true) =
      Except.ok (CelltypeAcc.mk d true) := rfl

/-- C5 counterexample: with both a settings table and an output xml
cell type table supplied, the code keeps the settings only code five,
so the resolved mapping is not the first successful tier alone, as the
claimed three tier fallback prescribes. -/
theorem C5_counterexample :
    (readCellData (some [((0:ℤ), "wt"), (5, "alien")])
        (some [((0:ℤ), "wildtype")])
        [CellLabel.mk "position" 3 "micron"] []
        (some [[1], [2], [3]])).toOption.map Prod.fst =
      some [((0:ℤ), "wildtype"), (5, "alien")] ∧
    claimResolve (some [((0:ℤ), "wildtype")])
        (some [((0:ℤ), "wt"), (5, "alien")]) [1] =
      [((0:ℤ), "wildtype")] ∧
    some [((0:ℤ), "wildtype"), (5, "alien")] ≠
      (some [((0:ℤ), "wildtype")] : Option (List (ℤ × String))) :=
  ⟨by decide, by decide, by decide⟩

/-- C5 amended: whenever the load succeeds, the resolved cell type
mapping is the settings table first, with the output xml table merged
over it, overwriting shared codes and keeping settings only codes, and
at least one of the two was present; when neither is present and
labels exist, the load aborts in the intermediate label scan with the
AttributeError caused by reading the misspelled attribute tex, so the
observed value fallback is never reached. -/
theorem C5_celltype_resolution :
    (∀ (settings gold : Option (List (ℤ × String)))
      (labels : List CellLabel) (lsSub : List String)
      (file : Option (List (List ℚ)))
      (ds : List (ℤ × String)) (table : List (String × List ℚ)),
      readCellData settings gold labels lsSub file = Except.ok (ds, table) →
      (settings.isSome = true ∨ gold.isSome = true) ∧
      ds = dictUpdate (dictUpdate [] (settings.getD [])) (gold.getD [])) ∧
    (∀ (labels : List CellLabel) (lsSub : List String)
      (file : Option (List (List ℚ))), labels ≠ [] →
      readCellData none none labels lsSub file =
        Except.error "AttributeError: Element object has no attribute tex") := by
  constructor
  · intro s g labels lsSub file ds table h
    unfold readCellData at h
    rcases s with _ | ts <;> rcases g with _ | tg
    · simp only [settingsStep, goldStep] at h
      cases labels with
      | nil =>
        simp only [labelScanStep, Bool.false_eq_true, if_false] at h
        simp only [expandLabels, List.flatMap_nil] at h
        cases file with
        | none =>
          simp only [loadCellMatrix, List.map_nil, List.length_nil,
            if_pos, List.zip_nil_left] at h
          simp [bronzeStep] at h
        | some m =>
          simp only [loadCellMatrix] at h
          by_cases hm : m.length = 0
          · rw [if_pos (by simpa using hm)] at h
            simp [bronzeStep, List.zip_nil_left] at h
          · rw [if_neg (by simpa using hm)] at h
            exact absurd h (by simp)
      | cons l lt =>
        simp only [labelScanStep, Bool.false_eq_true, if_false] at h
        exact absurd h (by simp)
    · simp only [settingsStep, goldStep, labelScanStep_true] at h
      split at h
      · exact absurd h (by simp)
      · rw [bronzeStep_true] at h
        simp only [Except.ok.injEq, Prod.mk.injEq] at h
        exact ⟨Or.inr rfl, h.1.symm⟩
    · simp only [settingsStep, goldStep, labelScanStep_true] at h
      split at h
      · exact absurd h (by simp)
      · rw [bronzeStep_true] at h
        simp only [Except.ok.injEq, Prod.mk.injEq] at h
        exact ⟨Or.inl rfl, h.1.symm⟩
    · simp only [settingsStep, goldStep, labelScanStep_true] at h
      split at h
      · exact absurd h (by simp)
      · rw [bronzeStep_true] at h
        simp only [Except.ok.injEq, Prod.mk.injEq] at h
        exact ⟨Or.inl rfl, h.1.symm⟩
  · intro labels lsSub file hne
    unfold readCellData
    cases labels with
    | nil => exact absurd rfl hne
    | cons l lt =>
      simp only [settingsStep, goldStep, labelScanStep,
        Bool.false_eq_true, if_false]

/-- Witness for C5 at a bundle carrying only a settings table: the
load succeeds and resolves exactly that table. -/
theorem C5_witness :
    ((some [((0:ℤ), "a")] : Option (List (ℤ × String))).isSome = true ∨
      (none : Option (List (ℤ × String))).isSome = true) ∧
    [((0:ℤ), "a")] =
      dictUpdate (dictUpdate []
          ((some [((0:ℤ), "a")] : Option (List (ℤ × String))).getD []))
        ((none : Option (List (ℤ × String))).getD []) :=
  C5_celltype_resolution.1 (some [((0:ℤ), "a")]) none
    [CellLabel.mk "position" 3 "u"] [] (some [[], [], []])
    [((0:ℤ), "a")]
    [("position_x", []), ("position_y", []), ("position_z", [])]
    (by decide)

/-- Two maps over a list differ when they differ on one member. -/
theorem map_ne_of_mem {α β : Type} (f g : α → β) (l : List α) (a : α)
    (ha : a ∈ l) (hne : f a ≠ g a) : l.map f ≠ l.map g := by
  induction l with
  | nil => cases ha
  | cons x t ih =>
    intro he
    simp only [List.map_cons, List.cons.injEq] at he
    rcases List.mem_cons.mp ha with hax | hat
    · exact hne (hax ▸ he.1)
    · exact ih hat he.2

/-- Setting an in range position stores the new value there. -/
theorem getD_set_self (l : List ℚ) (n : ℕ) (a : ℚ) (h : n < l.length) :
    (l.set n a).getD n 0 = a := by
  induction l generalizing n with
  | nil => cases h
  | cons x t ih =>
    cases n with
    | zero => rfl
    | succ m => exact ih m (by simpa using h)

/-- C9 counterexample: after a caller writes ninety nine into position
zero of the first array returned by get_mesh_mnp_axis, a later call of
the same accessor observes the changed data, so the accessor did not
return an independent copy. -/
theorem C9_counterexample :
    readAxes (storeWrite storeC ((get_mesh_mnp_axis snapC).headD 0) 0 99)
        (get_mesh_mnp_axis snapC) ≠
      readAxes storeC (get_mesh_mnp_axis snapC) := by decide

/-- C9 amended: get_mesh_mnp_axis returns a shallow copy, a fresh
outer list holding the snapshot's own array references; in place
mutation through any contained reference that actually changes a
stored value is visible to every later accessor call. -/
theorem C9_shallow_copy_aliasing (snap : SnapshotMesh) (store : Store)
    (addr idx : ℕ) (v : ℚ)
    (hmem : addr ∈ snap.mnpAxisRefs)
    (hidx : idx < (store addr).length)
    (hv : (store addr).getD idx 0 ≠ v) :
    get_mesh_mnp_axis snap = snap.mnpAxisRefs ∧
    readAxes (storeWrite store addr idx v) (get_mesh_mnp_axis snap) ≠
      readAxes store (get_mesh_mnp_axis snap) := by
  refine ⟨rfl, ?_⟩
  unfold readAxes get_mesh_mnp_axis listShallowCopy
  apply map_ne_of_mem _ _ _ addr hmem
  unfold storeWrite
  rw [if_pos rfl]
  intro he
  exact hv (by rw [← getD_set_self (store addr) idx v hidx, he])

/-- Witness for C9: writing ninety nine into the second shared array
of the concrete snapshot changes what the accessor returns next. -/
theorem C9_witness :
    get_mesh_mnp_axis snapC = snapC.mnpAxisRefs ∧
    readAxes (storeWrite storeC 1 0 99) (get_mesh_mnp_axis snapC) ≠
      readAxes storeC (get_mesh_mnp_axis snapC) :=
  C9_shallow_copy_aliasing snapC storeC 1 0 99 (by decide) (by decide)
    (by decide)

theorem parseDigitsAux_append (xs ys : List Char) (acc : ℕ) :
    parseDigitsAux acc (xs ++ ys) =
      match parseDigitsAux acc xs with
      | some a => parseDigitsAux a ys
      | none => none := by
  induction xs generalizing acc with
  | nil => rfl
  | cons c cs ih =>
    simp only [List.cons_append, parseDigitsAux]
    cases charDigit c with
    | none => rfl
    | some d => exact ih (acc * 10 + d)

theorem charDigit_digitChar (d : ℕ) (h : d < 10) :
    charDigit (digitChar d) = some d := by
  interval_cases d <;> decide

theorem natReprGo_parse (fuel : ℕ) : ∀ (n acc : ℕ), n ≤ fuel →
    parseDigitsAux acc (natReprGo fuel n) =
      some (acc * 10 ^ (natReprGo fuel n).length + n) := by
  induction fuel with
  | zero =>
    intro n acc hn
    have : n = 0 := Nat.le_zero.mp hn
    subst this
    simp [natReprGo, parseDigitsAux]
  | succ fuel ih =>
    intro n acc hn
    by_cases h0 : n = 0
    · subst h0
      simp [natReprGo, parseDigitsAux]
    · rw [natReprGo, if_neg h0]
      have hdiv : n / 10 ≤ fuel := by
        have : n / 10 < n := Nat.div_lt_self (Nat.pos_of_ne_zero h0) (by omega)
        omega
      rw [parseDigitsAux_append]
      rw [ih (n / 10) acc hdiv]
      simp only [parseDigitsAux, charDigit_digitChar (n % 10) (Nat.mod_lt n (by omega))]
      rw [List.length_append]
      simp only [List.length_singleton]
      congr 1
      have hmod := Nat.div_add_mod n 10
      ring_nf
      omega

theorem parseDigits_eq_aux (l : List Char) (h : l ≠ []) :
    parseDigits l = parseDigitsAux 0 l := by
  cases l with
  | nil => exact absurd rfl h
  | cons c cs => rfl

theorem parseDigits_natRepr (n : ℕ) : parseDigits (natRepr n) = some n := by
  by_cases h0 : n = 0
  · subst h0; decide
  · have hne : natReprGo n n ≠ [] := by
      cases n with
      | zero => exact absurd rfl h0
      | succ m =>
        rw [natReprGo, if_neg h0]
        simp
    unfold natRepr
    rw [if_neg h0]
    rw [parseDigits_eq_aux _ hne, natReprGo_parse n n 0 (le_refl n)]
    simp

theorem natReprGo_chars (fuel : ℕ) : ∀ n c, c ∈ natReprGo fuel n →
    ∃ d, d < 10 ∧ c = digitChar d := by
  induction fuel with
  | zero => intro n c hc; simp [natReprGo] at hc
  | succ fuel ih =>
    intro n c hc
    rw [natReprGo] at hc
    by_cases h0 : n = 0
    · rw [if_pos h0] at hc; simp at hc
    · rw [if_neg h0] at hc
      rcases List.mem_append.mp hc with h | h
      · exact ih (n / 10) c h
      · simp only [List.mem_singleton] at h
        exact ⟨n % 10, Nat.mod_lt n (by omega), h⟩

theorem natRepr_chars (n : ℕ) (c : Char) (hc : c ∈ natRepr n) :
    ∃ d, d < 10 ∧ c = digitChar d := by
  unfold natRepr at hc
  by_cases h0 : n = 0
  · rw [if_pos h0] at hc
    simp only [List.mem_singleton] at hc
    exact ⟨0, by omega, hc⟩
  · rw [if_neg h0] at hc
    exact natReprGo_chars n n c hc

theorem natRepr_ne_nil (n : ℕ) : natRepr n ≠ [] := by
  unfold natRepr
  by_cases h0 : n = 0
  · rw [if_pos h0]; simp
  · rw [if_neg h0]
    cases n with
    | zero => exact absurd rfl h0
    | succ m =>
      rw [natReprGo, if_neg h0]
      simp

theorem digitChar_not_space (d : ℕ) (h : d < 10) :
    pyIsSpace (digitChar d) = false := by interval_cases d <;> decide

theorem digitChar_ne_colon (d : ℕ) (h : d < 10) : digitChar d ≠ ':' := by
  interval_cases d <;> decide

theorem digitChar_ne_comma (d : ℕ) (h : d < 10) : digitChar d ≠ ',' := by
  interval_cases d <;> decide

theorem intRepr_chars (i : ℤ) (c : Char) (hc : c ∈ intRepr i) :
    c = '-' ∨ ∃ d, d < 10 ∧ c = digitChar d := by
  unfold intRepr at hc
  by_cases hi : i < 0
  · rw [if_pos hi] at hc
    rcases List.mem_cons.mp hc with h | h
    · exact Or.inl h
    · exact Or.inr (natRepr_chars _ c h)
  · rw [if_neg hi] at hc
    exact Or.inr (natRepr_chars _ c hc)

theorem intRepr_not_space (i : ℤ) (c : Char) (hc : c ∈ intRepr i) :
    pyIsSpace c = false := by
  rcases intRepr_chars i c hc with h | ⟨d, hd, h⟩
  · rw [h]; decide
  · rw [h]; exact digitChar_not_space d hd

theorem intRepr_ne_colon (i : ℤ) (c : Char) (hc : c ∈ intRepr i) : c ≠ ':' := by
  rcases intRepr_chars i c hc with h | ⟨d, hd, h⟩
  · rw [h]; decide
  · rw [h]; exact digitChar_ne_colon d hd

theorem intRepr_ne_comma (i : ℤ) (c : Char) (hc : c ∈ intRepr i) : c ≠ ',' := by
  rcases intRepr_chars i c hc with h | ⟨d, hd, h⟩
  · rw [h]; decide
  · rw [h]; exact digitChar_ne_comma d hd

theorem dropWhile_eq_self_of (l : List Char)
    (h : ∀ c ∈ l, pyIsSpace c = false) : l.dropWhile pyIsSpace = l := by
  cases l with
  | nil => rfl
  | cons x t =>
    rw [List.dropWhile_cons, h x (List.mem_cons_self x t)]
    simp

theorem pyStrip_eq_self (l : List Char)
    (h : ∀ c ∈ l, pyIsSpace c = false) : pyStrip l = l := by
  unfold pyStrip
  rw [dropWhile_eq_self_of l h,
    dropWhile_eq_self_of l.reverse (fun c hc => h c (List.mem_reverse.mp hc)),
    List.reverse_reverse]

theorem pySplit_ne_nil (sep : Char) (l : List Char) : pySplit sep l ≠ [] := by
  cases l with
  | nil => simp [pySplit]
  | cons c cs =>
    rw [pySplit]
    cases hs : pySplit sep cs with
    | nil => simp
    | cons hh tt => by_cases hc : c = sep <;> simp [hc]

theorem pySplit_no_sep (sep : Char) (l : List Char) (h : sep ∉ l) :
    pySplit sep l = [l] := by
  induction l with
  | nil => rfl
  | cons c cs ih =>
    have hcs : sep ∉ cs := fun hx => h (List.mem_cons_of_mem c hx)
    have hc : ¬ (c = sep) := fun he => h (he ▸ List.mem_cons_self c cs)
    rw [pySplit, ih hcs]
    show (if c = sep then [] :: cs :: [] else (c :: cs) :: []) = [c :: cs]
    rw [if_neg hc]

theorem pySplit_append (sep : Char) (xs rest : List Char) (h : sep ∉ xs) :
    pySplit sep (xs ++ sep :: rest) = xs :: pySplit sep rest := by
  induction xs with
  | nil =>
    rw [List.nil_append, pySplit]
    cases hs : pySplit sep rest with
    | nil => exact absurd hs (pySplit_ne_nil sep rest)
    | cons hh tt =>
      show (if sep = sep then [] :: hh :: tt else (sep :: hh) :: tt) =
        [] :: hh :: tt
      rw [if_pos rfl]
  | cons c cs ih =>
    have hcs : sep ∉ cs := fun hx => h (List.mem_cons_of_mem c hx)
    have hc : ¬ (c = sep) := fun he => h (he ▸ List.mem_cons_self c cs)
    rw [List.cons_append, pySplit, ih hcs]
    show (if c = sep then [] :: cs :: pySplit sep rest
      else (c :: cs) :: pySplit sep rest) = (c :: cs) :: pySplit sep rest
    rw [if_neg hc]

theorem joinComma_chars (pieces : List (List Char)) (c : Char)
    (hc : c ∈ joinComma pieces) : c = ',' ∨ ∃ p ∈ pieces, c ∈ p := by
  induction pieces with
  | nil => simp [joinComma] at hc
  | cons p ps ih =>
    cases ps with
    | nil =>
      refine Or.inr ⟨p, by simp, ?_⟩
      simpa [joinComma] using hc
    | cons q qs =>
      rw [show joinComma (p :: q :: qs) = p ++ ',' :: joinComma (q :: qs)
        from rfl] at hc
      rcases List.mem_append.mp hc with h | h
      · exact Or.inr ⟨p, by simp, h⟩
      · rcases List.mem_cons.mp h with h1 | h1
        · exact Or.inl h1
        · rcases ih h1 with h2 | ⟨r, hr, hcr⟩
          · exact Or.inl h2
          · exact Or.inr ⟨r, by simp [hr], hcr⟩

theorem pySplit_joinComma (pieces : List (List Char)) (hne : pieces ≠ [])
    (h : ∀ p ∈ pieces, ',' ∉ p) : pySplit ',' (joinComma pieces) = pieces := by
  induction pieces with
  | nil => exact absurd rfl hne
  | cons p ps ih =>
    cases ps with
    | nil => exact pySplit_no_sep ',' p (h p (by simp))
    | cons q qs =>
      rw [show joinComma (p :: q :: qs) = p ++ ',' :: joinComma (q :: qs)
        from rfl]
      rw [pySplit_append ',' p _ (h p (by simp))]
      rw [ih (by simp) (fun r hr => h r (by simp [hr]))]

theorem pyInt_natRepr (n : ℕ) : pyInt (natRepr n) = some (n : ℤ) := by
  unfold pyInt
  rw [pyStrip_eq_self _ (fun c hc => by
    obtain ⟨d, hd, hcd⟩ := natRepr_chars n c hc
    rw [hcd]; exact digitChar_not_space d hd)]
  cases hl : natRepr n with
  | nil => exact absurd hl (natRepr_ne_nil n)
  | cons c cs =>
    obtain ⟨d, hd, hcd⟩ := natRepr_chars n c (hl ▸ List.mem_cons_self c cs)
    split
    · rename_i rest heq
      rw [hcd] at heq
      exact absurd (List.head_eq_of_cons_eq heq) (by
        have : digitChar d ≠ '-' := by interval_cases d <;> decide
        exact this)
    · rename_i rest heq
      rw [hcd] at heq
      exact absurd (List.head_eq_of_cons_eq heq) (by
        have : digitChar d ≠ '+' := by interval_cases d <;> decide
        exact this)
    · rw [← hl, parseDigits_natRepr]
      rfl

theorem pyInt_intRepr (i : ℤ) : pyInt (intRepr i) = some i := by
  by_cases hi : i < 0
  · unfold intRepr
    rw [if_pos hi]
    unfold pyInt
    rw [pyStrip_eq_self _ (fun c hc => by
      rcases List.mem_cons.mp hc with h | h
      · rw [h]; decide
      · obtain ⟨d, hd, hcd⟩ := natRepr_chars _ c h
        rw [hcd]; exact digitChar_not_space d hd)]
    show (parseDigits (natRepr i.natAbs)).map (fun n => -(n : ℤ)) = some i
    rw [parseDigits_natRepr]
    show some (-(i.natAbs : ℤ)) = some i
    congr 1
    omega
  · unfold intRepr
    rw [if_neg hi]
    rw [pyInt_natRepr]
    congr 1
    omega

theorem pyIntList_map (vs : List ℤ) :
    pyIntList (vs.map intRepr) = some vs := by
  induction vs with
  | nil => rfl
  | cons v vt ih =>
    rw [List.map_cons, pyIntList, pyInt_intRepr, ih]

theorem joinComma_cons_ne_nil (p : List Char) (ps : List (List Char))
    (hp : p ≠ []) : joinComma (p :: ps) ≠ [] := by
  cases ps with
  | nil => simpa [joinComma] using hp
  | cons q qs =>
    show p ++ ',' :: joinComma (q :: qs) ≠ []
    simp

theorem renderAdjLine_no_space (k : ℤ) (vs : List ℤ) (c : Char)
    (hc : c ∈ renderAdjLine k vs) : pyIsSpace c = false := by
  unfold renderAdjLine at hc
  rcases List.mem_append.mp hc with h | h
  · exact intRepr_not_space k c h
  · rcases List.mem_cons.mp h with h1 | h1
    · rw [h1]; decide
    · rcases joinComma_chars _ c h1 with h2 | ⟨p, hp, hcp⟩
      · rw [h2]; decide
      · obtain ⟨v, _, hv⟩ := List.mem_map.mp hp
        exact intRepr_not_space v c (hv ▸ hcp)

theorem joinComma_no_comma_members (vs : List ℤ) (c : Char)
    (hc : c ∈ joinComma (vs.map intRepr)) : c = ',' ∨ c ≠ ':' := by
  rcases joinComma_chars _ c hc with h | ⟨p, hp, hcp⟩
  · exact Or.inl h
  · obtain ⟨v, _, hv⟩ := List.mem_map.mp hp
    exact Or.inr (intRepr_ne_colon v c (hv ▸ hcp))

theorem parseGraphLine_render (k : ℤ) (vs : List ℤ) :
    parseGraphLine (renderAdjLine k vs) = some (k, vs.toFinset) := by
  unfold parseGraphLine
  rw [pyStrip_eq_self _ (renderAdjLine_no_space k vs)]
  unfold renderAdjLine
  rw [pySplit_append ':' (intRepr k) _
    (fun hmem => (intRepr_ne_colon k ':' hmem) rfl)]
  rw [pySplit_no_sep ':' _ (fun hmem => by
    rcases joinComma_no_comma_members vs ':' hmem with h | h
    · exact absurd h (by decide)
    · exact h rfl)]
  show (match pyInt (intRepr k) with
    | none => none
    | some key =>
      if (pyStrip (joinComma (vs.map intRepr))).length ≠ 0 then
        match pyIntList (pySplit ',' (joinComma (vs.map intRepr))) with
        | some ids => some (key, ids.toFinset)
        | none => none
      else some (key, (∅ : Finset ℤ))) = some (k, vs.toFinset)
  rw [pyInt_intRepr]
  show (if (pyStrip (joinComma (vs.map intRepr))).length ≠ 0 then
      match pyIntList (pySplit ',' (joinComma (vs.map intRepr))) with
      | some ids => some (k, ids.toFinset)
      | none => none
    else some (k, (∅ : Finset ℤ))) = some (k, vs.toFinset)
  cases vs with
  | nil =>
    show (if (pyStrip (joinComma [])).length ≠ 0 then _ else _) = _
    rw [if_neg (by decide)]
    rfl
  | cons v vt =>
    have hjc : joinComma ((v :: vt).map intRepr) ≠ [] := by
      rw [List.map_cons]
      exact joinComma_cons_ne_nil _ _ (by
        unfold intRepr
        by_cases hv : v < 0
        · rw [if_pos hv]; simp
        · rw [if_neg hv]; exact natRepr_ne_nil v.natAbs)
    have hnos : ∀ c ∈ joinComma ((v :: vt).map intRepr), pyIsSpace c = false := by
      intro c hc
      rcases joinComma_chars _ c hc with h | ⟨p, hp, hcp⟩
      · rw [h]; decide
      · obtain ⟨w, _, hw⟩ := List.mem_map.mp hp
        exact intRepr_not_space w c (hw ▸ hcp)
    rw [pyStrip_eq_self _ hnos]
    rw [if_pos (by
      intro hlen
      exact hjc (List.length_eq_zero.mp hlen))]
    rw [pySplit_joinComma _ (by simp) (fun p hp hcp => by
      obtain ⟨w, _, hw⟩ := List.mem_map.mp hp
      exact (intRepr_ne_comma w ',' (hw ▸ hcp)) rfl)]
    rw [pyIntList_map]

theorem graphfileParseAux_render (pairs : List (ℤ × List ℤ)) :
    ∀ d, graphfileParseAux d (pairs.map (fun p => renderAdjLine p.1 p.2)) =
      Except.ok (pairs.foldl (fun acc p => dictUpd acc p.1 p.2.toFinset) d) := by
  induction pairs with
  | nil => intro d; rfl
  | cons p ps ih =>
    intro d
    rw [List.map_cons, graphfileParseAux, parseGraphLine_render p.1 p.2]
    exact ih (dictUpd d p.1 p.2.toFinset)

/-- C8: parsing a rendered adjacency file maps every line id colon
comma separated ids to the entry from the id to the set of listed ids,
an empty right hand side giving the empty set; in particular the line
5 colon 2 comma 7 parses to the entry 5 to the set 2 7 and the line
6 colon parses to the entry 6 to the empty set. -/
theorem C8_graph_line_parse :
    (∀ pairs : List (ℤ × List ℤ),
      graphfileParse (pairs.map (fun p => renderAdjLine p.1 p.2)) =
        Except.ok (pairs.foldl
          (fun acc p => dictUpd acc p.1 p.2.toFinset) [])) ∧
    graphfileParseStr ["5: 2,7"] = Except.ok [(5, ({2, 7} : Finset ℤ))] ∧
    graphfileParseStr ["6:"] = Except.ok [(6, (∅ : Finset ℤ))] :=
  ⟨fun pairs => graphfileParseAux_render pairs [], by decide, by decide⟩

end Pcdl
